import Mathlib

/-!
Verification development for the Car-Chatbot RAG repository.

Shallow embedding of the pure logic of:
- `src/data_processing/text_chunker.py` (node merging, tag detection, splitting),
- `src/data_processing/vectorizer.py` (index build/load and dimension handling),
- `src/data_processing/describe.py` (markdown image description workflow),
- `src/rag/ask_llm.py` (prompt building and answering),
- `src/rag/search.py` (search guards),
- `src/frontend/app.py` (fallback-phrase context suppression).

External effects (file system, FAISS, embedding model, the LLM) are modelled as
explicit parameters: a boolean or `Option`/`Except`-valued oracle stands for each
external call, and Python exceptions become `Except`/`Option` results.
Python strings are Lean `String`s; `len` is `String.length` (both count code
points).
-/

set_option maxRecDepth 10000

namespace CarRag

/-- Character-level substring prefix test: `leadsWith needle hay` is true when
`needle` is an initial segment of `hay`. -/
def leadsWith : List Char → List Char → Bool
  | [], _ => true
  | _ :: _, [] => false
  | a :: as, b :: bs => a == b && leadsWith as bs

/-- Substring containment on character lists, used to model Python's `in`
operator on strings. -/
def hasSub (needle : List Char) : List Char → Bool
  | [] => needle.isEmpty
  | b :: bs => leadsWith needle (b :: bs) || hasSub needle bs

/-- Model of Python's `needle in hay` substring test. -/
def pyIn (needle hay : String) : Bool :=
  hasSub needle.data hay.data

/-- Model of Python's `str.lower()` (per-character lowercasing). -/
def strLower (s : String) : String :=
  String.mk (s.data.map Char.toLower)

/-- Model of Python's `str.strip()`: drop leading and trailing whitespace. -/
def pyStrip (s : String) : String :=
  String.mk (((s.data.dropWhile Char.isWhitespace).reverse.dropWhile
    Char.isWhitespace).reverse)

/-! ## Chunker: `TextChunker` from `src/data_processing/text_chunker.py` -/

/-- Constant `MIN_CHUNK_SIZE` from `text_chunker.py`. -/
def MIN_CHUNK_SIZE : Nat := 250

/-- Constant `MAX_CHUNK_SIZE` from `text_chunker.py`. -/
def MAX_CHUNK_SIZE : Nat := 1500

/-- Constant `CHUNK_OVERLAP` from `text_chunker.py`. -/
def CHUNK_OVERLAP : Nat := 150

/-- The node-merging loop of `TextChunker.chunk_markdown_file`
(`text_chunker.py` lines 71-89).  The inputs are the texts of the parsed
nodes (the `MarkdownNodeParser` itself is external); `buf` is the running
`buffer_text`.  Each node text is stripped; an empty running buffer is
replaced by the node text, a buffer below `minSize` absorbs the node text
joined with a blank line, and a buffer at or above `minSize` is emitted and
a fresh buffer starts with the node text.  A non-empty trailing buffer is
flushed.  (The parallel `buffer_meta` bookkeeping carries no information
used by the merge decisions and is omitted.) -/
def mergeLoop (minSize : Nat) : List String → String → List String
  | [], buf => if buf = "" then [] else [buf]
  | n :: ns, buf =>
    let t := pyStrip n
    if buf = "" then mergeLoop minSize ns t
    else if buf.length < minSize then mergeLoop minSize ns (buf ++ "\n\n" ++ t)
    else buf :: mergeLoop minSize ns t

/-- The merged buffers produced for a node-text sequence, starting from the
empty `buffer_text` as in the source. -/
def mergeBuffers (minSize : Nat) (nodes : List String) : List String :=
  mergeLoop minSize nodes ""

/-- Separator-joined concatenation of a group of node texts: the text a
buffer holds after absorbing the group one node at a time. -/
def joinSep (sep : String) : List String → String
  | [] => ""
  | [x] => x
  | x :: y :: xs => x ++ sep ++ joinSep sep (y :: xs)

/-- The fixed ordered tag list `known_models` from
`TextChunker._extract_model_name`. -/
def known_models : List String :=
  ["Ford Mustang", "Daewoo Matiz", "Honda", "Subaru", "Ford", "Volkswagen"]

/-- Filename normalization from `TextChunker._extract_model_name`:
`filename.lower().replace('-', ' ').replace('_', ' ')`. -/
def normalize_filename (filename : String) : String :=
  String.mk ((strLower filename).data.map
    (fun c => if c = '-' then ' ' else if c = '_' then ' ' else c))

/-- The per-model match test of `TextChunker._extract_model_name`:
`model.lower() in text_norm or model.lower() in fn_norm`. -/
def model_matches (text filename : String) (m : String) : Bool :=
  pyIn (strLower m) (strLower text) || pyIn (strLower m) (normalize_filename filename)

/-- Embedding of `TextChunker._extract_model_name` (`text_chunker.py`
lines 45-54): first tag in `known_models` matching the lowered text or the
normalized filename, defaulting to `"Volkswagen"`. -/
def extract_model_name (text filename : String) : String :=
  match known_models.find? (model_matches text filename) with
  | some m => m
  | none => "Volkswagen"

/-- Tag assignment of `TextChunker.chunk_markdown_file` (`text_chunker.py`
lines 63-100): `model_name` is computed once from the whole file `content`
and the filename, and every merged buffer of the file carries that same
tag.  Each element pairs a merged buffer text with its `car_model` tag. -/
def chunk_file_tags (minSize : Nat) (content : String) (nodes : List String)
    (filename : String) : List (String × String) :=
  let model_name := extract_model_name content filename
  (mergeBuffers minSize nodes).map (fun b => (b, model_name))

/-! ## Recursive splitter (third-party `RecursiveCharacterTextSplitter`)

The splitter called at `text_chunker.py` line 94 is langchain library code
that is not part of this repository; only its configuration
(`chunk_size=max_chunk_size_chars`, `chunk_overlap`, and the separator
hierarchy `['\n\n', '\n', '. ', '? ', '! ', '... ', ' ']`) is in `src`.
The definitions below are therefore modelled from the spec. -/

/-- Separator hierarchy passed to the splitter in `TextChunker.__init__`
(`text_chunker.py` line 39). -/
def splitter_separators : List String :=
  ["\n\n", "\n", ". ", "? ", "! ", "... ", " "]

/-- Modelled from the spec: last-resort character-level cut used when no
separator level remains, so that "each resulting chunk's length is ≤ the
maximum threshold".  `fuel` bounds the recursion by the input length. -/
def hardChunksAux (maxSize : Nat) : Nat → List Char → List (List Char)
  | _, [] => []
  | 0, cs => [cs]
  | fuel + 1, cs =>
    if cs.length ≤ maxSize then [cs]
    else cs.take maxSize :: hardChunksAux maxSize fuel (cs.drop maxSize)

/-- Modelled from the spec: character-level cut of a text into pieces of at
most `maxSize` characters. -/
def hardChunks (maxSize : Nat) (s : String) : List String :=
  (hardChunksAux maxSize s.data.length s.data).map String.mk

/-- Modelled from the spec: the greedy re-merge of split pieces — adjacent
pieces are joined (with the separator) while the combined length stays
within the maximum, mirroring how the recursive splitter re-assembles
small fragments into chunks no longer than the threshold. -/
def mergeSplits (maxSize : Nat) (sep : String) : List String → String → List String
  | [], acc => if acc = "" then [] else [acc]
  | p :: ps, acc =>
    if acc = "" then mergeSplits maxSize sep ps p
    else if acc.length + sep.length + p.length ≤ maxSize then
      mergeSplits maxSize sep ps (acc ++ sep ++ p)
    else acc :: mergeSplits maxSize sep ps p

/-- Modelled from the spec: `RecursiveCharacterTextSplitter.split_text`
(third-party code absent from the repository).  A text within the maximum
is returned whole; otherwise it is split on the current separator, each
part is split recursively with the remaining separators, and the resulting
pieces are greedily re-merged up to the maximum.  With no separators left
the text is cut at character granularity.  (The sliding-window overlap
carried between consecutive chunks is not modelled; it only re-joins
material while respecting the same maximum.) -/
def split_text (maxSize : Nat) : List String → String → List String
  | [], text => hardChunks maxSize text
  | sep :: rest, text =>
    if text.length ≤ maxSize then [text]
    else
      let pieces := (text.splitOn sep).flatMap (fun part => split_text maxSize rest part)
      mergeSplits maxSize sep pieces ""

/-- Per-buffer chunking step of `TextChunker.chunk_markdown_file`
(`text_chunker.py` lines 92-94): the buffer text is prefixed with the
`Car model:` line and handed to the recursive splitter. -/
def buffer_chunks (modelName bufText : String) : List String :=
  split_text MAX_CHUNK_SIZE splitter_separators
    ("Car model: " ++ modelName ++ "\n\n" ++ bufText)

/-! ## Vectorizer: `VectorIndex` from `src/data_processing/vectorizer.py` -/

/-- State of a `VectorIndex` after `__init__`: whether
`_initialize_embed_model` produced a model, and the (possibly corrected)
`embedding_dim`. -/
structure VectorIndexModel where
  embed_model : Option Unit
  embedding_dim : Nat
  deriving DecidableEq

/-- Embedding of `VectorIndex.__init__` together with
`_initialize_embed_model` (`vectorizer.py` lines 24-72).  `embedProbe`
stands for the external model construction plus the `'test'` embedding
probe: `none` when any of it raises (the handler returns no model and
leaves the dimension untouched), `some d` when the model loads and reports
output dimension `d`.  When `d` differs from the configured dimension the
configured dimension is overwritten with `d` (a logged warning, not a
failure). -/
def mkVectorIndex (configuredDim : Nat) (embedProbe : Option Nat) : VectorIndexModel :=
  match embedProbe with
  | none => { embed_model := none, embedding_dim := configuredDim }
  | some d =>
    { embed_model := some ()
      embedding_dim := if d ≠ configuredDim then d else configuredDim }

/-- Embedding of the front part of `VectorIndex._create_index`
(`vectorizer.py` lines 111-132): without a model or with an empty node
list no index is created; otherwise the FAISS quantizer and IVF structure
are constructed with the instance's `embedding_dim`, returned here as the
dimension the ANN structure is built with. -/
def create_index_dim (v : VectorIndexModel) (nodes : List String) : Option Nat :=
  match v.embed_model with
  | none => none
  | some _ => if nodes = [] then none else some v.embedding_dim

/-- Embedding of `VectorIndex.build_or_load_index` (`vectorizer.py` lines
165-181).  `path_exists` models `self.vector_store_path.exists()`,
`load_result` the outcome of `self._load_index()`, and `create_result` the
outcome of `self._create_index(nodes)`. -/
def build_or_load_index {α : Type} (embed_model : Option Unit) (path_exists : Bool)
    (load_result create_result : Option α) (force_reindex : Bool) : Option α :=
  match embed_model with
  | none => none
  | some _ =>
    let index := if !force_reindex && path_exists then load_result else none
    match index with
    | some i => some i
    | none => create_result

/-! ## Image description: `MarkdownImageProcessor` from
`src/data_processing/describe.py` -/

/-- A markdown document as an alternating sequence of plain-text segments
and image tags; an image tag records its alt text and path, the two groups
of `image_tag_pattern`. -/
inductive MdPiece where
  | text (s : String)
  | img (alt : String) (path : String)
  deriving DecidableEq

/-- Embedding of `MarkdownImageProcessor._describe_image` (`describe.py`
lines 45-111).  `img_exists` models `image_path.exists()`; a missing file
raises `FileNotFoundError` (here `Except.error`), which the function
re-raises.  `llm` stands for the multimodal call on the image: any failure
of the call after the existence check is caught and converted into an
error-text description (the source distinguishes an `OSError` text from a
generic one; both are returned, not raised). -/
def describe_image (img_exists : String → Bool) (llm : String → Except Unit String)
    (path : String) : Except Unit String :=
  if img_exists path = false then Except.error ()
  else
    match llm path with
    | Except.ok d => Except.ok d
    | Except.error _ => Except.ok ("Error describing image " ++ path)

/-- The image-replacement loop of
`MarkdownImageProcessor.process_markdown_file` (`describe.py` lines
147-163): each image tag is replaced in the content by its description;
the first describe call that raises aborts the loop with the exception.
(The source iterates over the matches in reverse so that earlier spans
stay valid; the replaced document and the abort condition do not depend on
that order, so the pieces are processed front to back here.) -/
def replace_images (describe : String → Except Unit String) :
    List MdPiece → Except Unit (List MdPiece)
  | [] => Except.ok []
  | MdPiece.text s :: rest =>
    (replace_images describe rest).map (fun r => MdPiece.text s :: r)
  | MdPiece.img _alt path :: rest =>
    match describe path, replace_images describe rest with
    | Except.ok d, Except.ok r => Except.ok (MdPiece.text d :: r)
    | _, _ => Except.error ()

/-- Embedding of `MarkdownImageProcessor.process_markdown_file`
(`describe.py` lines 133-172).  The whole per-file body runs inside one
`try`: the replacement loop and the final `write_text` share it, so an
exception escaping any describe call reaches the file-level handler and
the file is never rewritten (`none`).  When every description returns, the
rewritten document is saved (`some`). -/
def process_markdown_file (img_exists : String → Bool)
    (llm : String → Except Unit String) (pieces : List MdPiece) :
    Option (List MdPiece) :=
  match replace_images (describe_image img_exists llm) pieces with
  | Except.ok newPieces => some newPieces
  | Except.error _ => none

/-- Embedding of `MarkdownImageProcessor.process_dir` (`describe.py` lines
174-189): every markdown file in the directory is processed in turn;
`process_markdown_file` swallows its own failures, so one file's outcome
never stops its siblings. -/
def process_dir (img_exists : String → Bool) (llm : String → Except Unit String)
    (files : List (List MdPiece)) : List (Option (List MdPiece)) :=
  files.map (process_markdown_file img_exists llm)

/-- The expected single-image rewrite: a text segment is kept, an image
tag whose description succeeds becomes its description text. -/
def replace_one (describe : String → Except Unit String) : MdPiece → MdPiece
  | MdPiece.text s => MdPiece.text s
  | MdPiece.img alt path =>
    match describe path with
    | Except.ok d => MdPiece.text d
    | Except.error _ => MdPiece.img alt path

/-- Boolean per-piece check that an image piece's file exists (text pieces
pass vacuously). -/
def piece_img_ok (img_exists : String → Bool) : MdPiece → Bool
  | MdPiece.text _ => true
  | MdPiece.img _ path => img_exists path

/-! ## Answering: `CarAssistant` from `src/rag/ask_llm.py` -/

/-- Fixed message returned by `CarAssistant.get_answer` when no prompt
could be built. -/
def no_prompt_msg : String := "Could not generate a prompt from the provided context."

/-- Fixed message returned by `CarAssistant.get_answer` when the LLM call
raises. -/
def llm_error_msg : String := "An error occurred while contacting the LLM."

/-- Embedding of `CarAssistant._build_prompt` (`ask_llm.py` lines 26-55).
`nodes` holds the contents of the retrieved chunks (`node.node.get_content()`);
an empty (or `None`) node list yields the empty prompt, otherwise the
non-empty contents joined with blank lines are embedded in the fixed
instruction template together with the query. -/
def build_prompt (nodes : List String) (query : String) : String :=
  if nodes.isEmpty then ""
  else
    let context := String.intercalate "\n\n" (nodes.filter (fun c => c ≠ ""))
    "You are a helpful AI assistant specializing in answering questions about cars.\n"
      ++ "Your primary goal is to answer the user\x27s question using ONLY the "
      ++ "information provided in the \"Context\" section.\n\n"
      ++ "IMPORTANT: The \"Context\" may contain textual descriptions of one or "
      ++ "more images. You should treat these descriptions as factual information "
      ++ "about the visual aspects of the car(s) or relevant scenes.\n\n"
      ++ "Carefully and thoroughly review the ENTIRE provided context before "
      ++ "answering.\n\n"
      ++ "If the information required to answer the question is explicitly present "
      ++ "or can be directly inferred from the provided context (including any "
      ++ "image descriptions), please provide a concise answer.\n\n"
      ++ "Do not use any external knowledge or make assumptions beyond what is "
      ++ "explicitly stated in the context.\n\n"
      ++ "Context:\n" ++ context ++ "\n\nQuestion:\n" ++ query ++ "\n\nAnswer:\n"

/-- Embedding of `CarAssistant.get_answer` (`ask_llm.py` lines 57-74).
`llm` stands for `self.llm.generate_answer`; `Except.error` models any
exception it raises.  An empty prompt short-circuits to the fixed message;
an LLM failure is caught and becomes the fixed error message; on success
the answer is paired with the separator-joined retrieved chunk texts. -/
def get_answer (llm : String → Except Unit String) (query : String)
    (nodes : List String) : String × String :=
  let prompt := build_prompt nodes query
  if prompt = "" then (no_prompt_msg, "")
  else
    match llm prompt with
    | Except.ok answer =>
      (answer, String.intercalate "\n\n---\n\n" (nodes.filter (fun c => c ≠ "")))
    | Except.error _ => (llm_error_msg, "")

/-! ## Search guards: `search_in_index` from `src/rag/search.py` -/

/-- Logging levels used by the embedded fragments; the source logs through
the standard `logging` module. -/
inductive LogLevel where
  | info
  | warning
  | error
  deriving DecidableEq

/-- Embedding of `search_in_index` (`search.py` lines 72-103).  `retrieve`
stands for `index.as_retriever(...).retrieve(query_str)`, with
`Except.error` modelling a raised exception.  The returned pair is the
result list together with the sequence of log levels emitted on that path:
an empty query logs a warning, a `None` index logs an error, and the body
logs `info` before retrieving and then `info` (results or no results) or
`error` (caught exception). -/
def search_in_index {α : Type} (retrieve : String → Nat → Except Unit (List α))
    (query_str : String) (index : Option Unit) (top_k : Nat) :
    List α × List LogLevel :=
  if query_str = "" then ([], [LogLevel.warning])
  else
    match index with
    | none => ([], [LogLevel.error])
    | some _ =>
      match retrieve query_str top_k with
      | Except.ok [] => ([], [LogLevel.info, LogLevel.info])
      | Except.ok rs => (rs, [LogLevel.info, LogLevel.info])
      | Except.error _ => ([], [LogLevel.info, LogLevel.error])

/-! ## Fallback suppression: `RAGCarChatbotApp.run` from `src/frontend/app.py` -/

/-- The fixed `fallback_responses` list from `app.py` lines 131-134. -/
def fallback_responses : List String :=
  ["Based on the provided context, I am unable to provide an answer.",
   "I\x27m sorry, but I couldn\x27t find enough context to answer your question."]

/-- Embedding of the suppression step of `RAGCarChatbotApp.run` (`app.py`
lines 131-137): when the answer contains (case-insensitively) one of the
fallback phrases, `retrieved_chunks` is replaced by `None`; otherwise it
is kept. -/
def suppress_fallback_context (answer retrieved_chunks : String) : Option String :=
  if fallback_responses.any (fun f => pyIn (strLower f) (strLower answer)) then none
  else some retrieved_chunks

/-! ## Shared helper lemmas -/

/-- A string with a non-empty character list is not the empty string. -/
theorem str_ne_empty_of_data {a : String} (h : a.data ≠ []) : a ≠ "" := by
  intro ha
  exact h (by rw [ha])

/-- Appending on the right preserves non-emptiness of a string. -/
theorem str_left_ne_empty (a b : String) (h : a ≠ "") : a ++ b ≠ "" := by
  intro hab
  apply h
  have hd : a.data ++ b.data = [] := by
    have := congrArg String.data hab
    rwa [String.data_append] at this
  exact String.ext (List.append_eq_nil.mp hd).1

/-- First-match characterization of `List.find?` through `getD` indexing:
if position `i` satisfies the predicate and every earlier position does
not, `find?` returns the element at `i`. -/
theorem find_first_of_getD {α : Type} (p : α → Bool) (d : α) :
    ∀ (l : List α) (i : Nat), i < l.length → p (l.getD i d) = true →
      (∀ j : Nat, j < i → p (l.getD j d) = false) →
      l.find? p = some (l.getD i d) := by
  intro l
  induction l with
  | nil => intro i hi; simp at hi
  | cons a l ih =>
    intro i hi hp hj
    cases i with
    | zero =>
      rw [List.getD_cons_zero] at hp ⊢
      exact List.find?_cons_of_pos l hp
    | succ k =>
      have h0 : ¬ p a = true := by
        have := hj 0 (Nat.succ_pos k)
        rw [List.getD_cons_zero] at this
        simp [this]
      rw [List.find?_cons_of_neg l h0, List.getD_cons_succ]
      refine ih k (by simpa using hi) (by simpa using hp) ?_
      intro j hjk
      have := hj (j + 1) (by omega)
      simpa using this

/-! ## C1: build-or-load control flow -/

/-- C1: with a valid embedding model, `build_or_load_index` returns the
loaded index when `force_reindex` is false, the persisted path exists and
loading succeeds; in every other case (load failed, no persisted path, or
`force_reindex` true) it falls through to the result of building from the
provided chunks, and with `force_reindex` true the result never depends on
the persisted index. -/
theorem build_or_load_spec {α : Type} (path_exists force : Bool)
    (loadR createR : Option α) :
    (force = false → path_exists = true → ∀ i : α, loadR = some i →
      build_or_load_index (some ()) path_exists loadR createR force = some i) ∧
    (force = true ∨ path_exists = false ∨ loadR = none →
      build_or_load_index (some ()) path_exists loadR createR force = createR) ∧
    (force = true → ∀ loadR' : Option α,
      build_or_load_index (some ()) path_exists loadR createR force
        = build_or_load_index (some ()) path_exists loadR' createR force) := by
  refine ⟨?_, ?_, ?_⟩
  · rintro rfl rfl i rfl
    rfl
  · rintro (rfl | rfl | rfl) <;> simp [build_or_load_index]
  · rintro rfl loadR'
    simp [build_or_load_index]

/-- Witness for C1: a present persisted index is loaded when not forcing,
and forcing a rebuild returns the freshly created index instead. -/
theorem build_or_load_spec_witness :
    build_or_load_index (some ()) true (some 1) (some 2) false = some 1 ∧
    build_or_load_index (some ()) true (some 1) (some 2) true = some 2 :=
  ⟨(build_or_load_spec true false (some 1) (some 2)).1 rfl rfl 1 rfl,
   (build_or_load_spec true true (some 1) (some 2)).2.1 (Or.inl rfl)⟩

/-! ## C9: embedding-dimension correction -/

/-- C9: when the embedding model loads and reports output dimension
`detectedDim`, initialization succeeds (a mismatch is only a warning) and
the ANN structure of `_create_index` is always constructed with the
detected dimension, whatever dimension was configured. -/
theorem embed_dim_corrected (configuredDim detectedDim : Nat) (nodes : List String)
    (h : nodes ≠ []) :
    (mkVectorIndex configuredDim (some detectedDim)).embed_model = some () ∧
    create_index_dim (mkVectorIndex configuredDim (some detectedDim)) nodes
      = some detectedDim := by
  refine ⟨rfl, ?_⟩
  by_cases hd : detectedDim = configuredDim
  · subst hd
    simp [mkVectorIndex, create_index_dim, h]
  · simp [mkVectorIndex, create_index_dim, h, hd]

/-- Witness for C9: a configured dimension of 768 against a detected
dimension of 384 yields an ANN structure built with 384. -/
theorem embed_dim_corrected_witness :
    create_index_dim (mkVectorIndex 768 (some 384)) ["x"] = some 384 :=
  (embed_dim_corrected 768 384 ["x"] (by decide)).2

/-! ## C8: search guards -/

/-- C8 counterexample: with an absent (`None`) index and a non-empty
query, `search_in_index` returns the empty result but logs at `error`
level, not `warning` as the claim states. -/
theorem search_absent_index_cex :
    search_in_index (fun _ _ => Except.ok ([] : List Nat)) "query" none 5
      = ([], [LogLevel.error]) ∧ LogLevel.error ≠ LogLevel.warning :=
  ⟨rfl, by decide⟩

/-- C8 amended: an empty query string returns an empty result with a
warning log whatever the index is, and an absent (`None`) index with a
non-empty query returns an empty result with an error log; neither case
raises (the embedded function is total). -/
theorem search_guard_spec {α : Type} (retrieve : String → Nat → Except Unit (List α))
    (query_str : String) (index : Option Unit) (top_k : Nat) :
    search_in_index retrieve "" index top_k = ([], [LogLevel.warning]) ∧
    (query_str ≠ "" →
      search_in_index retrieve query_str none top_k = ([], [LogLevel.error])) := by
  constructor
  · rfl
  · intro h
    simp [search_in_index, h]

/-- Witness for C8's amended statement at a concrete non-empty query. -/
theorem search_guard_spec_witness :
    search_in_index (fun _ _ => Except.ok ([] : List Nat)) "hello" none 5
      = ([], [LogLevel.error]) :=
  (search_guard_spec (fun _ _ => Except.ok ([] : List Nat)) "hello" none 5).2
    (by decide)

/-! ## C7: fallback-phrase context suppression -/

/-- C7: when the answer contains (case-insensitively) one of the fixed
fallback phrases the retrieved context is suppressed to `None`, and when
it contains none of them the retrieved context is kept unchanged. -/
theorem fallback_suppression_spec (answer chunks : String) :
    ((∃ f ∈ fallback_responses, pyIn (strLower f) (strLower answer) = true) →
      suppress_fallback_context answer chunks = none) ∧
    ((∀ f ∈ fallback_responses, pyIn (strLower f) (strLower answer) = false) →
      suppress_fallback_context answer chunks = some chunks) := by
  constructor
  · intro h
    have ha : fallback_responses.any (fun f => pyIn (strLower f) (strLower answer))
        = true := List.any_eq_true.mpr h
    simp [suppress_fallback_context, ha]
  · intro h
    have ha : fallback_responses.any (fun f => pyIn (strLower f) (strLower answer))
        = false := by
      rw [List.any_eq_false]
      intro f hf
      simp [h f hf]
    simp [suppress_fallback_context, ha]

/-- Witness for C7: the exact "cannot answer" phrase from the claim forces
the context to `None`, and an unrelated answer keeps its chunks. -/
theorem fallback_suppression_witness :
    suppress_fallback_context
      "I\x27m sorry, but I couldn\x27t find enough context to answer your question."
      "some retrieved chunk" = none ∧
    suppress_fallback_context "The Honda has 90 horsepower." "some retrieved chunk"
      = some "some retrieved chunk" :=
  ⟨(fallback_suppression_spec _ _).1 (by decide),
   (fallback_suppression_spec _ _).2 (by decide)⟩

/-! ## C6: answering never raises -/

/-- A non-empty node list always yields a non-empty prompt. -/
theorem build_prompt_ne_empty (nodes : List String) (query : String)
    (h : nodes ≠ []) : build_prompt nodes query ≠ "" := by
  cases nodes with
  | nil => exact absurd rfl h
  | cons n ns =>
    show (build_prompt (n :: ns) query) ≠ ""
    rw [build_prompt]
    simp only [List.isEmpty_cons, if_false, Bool.false_eq_true]
    exact str_left_ne_empty _ _ (str_left_ne_empty _ _ (str_left_ne_empty _ _
      (str_left_ne_empty _ _ (str_left_ne_empty _ _ (str_left_ne_empty _ _
        (str_left_ne_empty _ _ (str_left_ne_empty _ _ (str_left_ne_empty _ _
          (str_left_ne_empty _ _ (str_left_ne_empty _ _ (str_left_ne_empty _ _
            (by decide))))))))))))

/-- C6: `get_answer` is a total function of the query, the chunk contents
and the LLM outcome (so it never raises); with an empty retrieved-chunk
list it returns the fixed no-prompt message and empty context without
consulting the LLM, and with a raising LLM it returns the fixed LLM error
message and empty context. -/
theorem get_answer_spec (query : String) (nodes : List String) :
    (∀ llm : String → Except Unit String,
      get_answer llm query [] = (no_prompt_msg, "")) ∧
    (nodes ≠ [] →
      get_answer (fun _ => Except.error ()) query nodes = (llm_error_msg, "")) := by
  constructor
  · intro llm
    rfl
  · intro h
    have hp := build_prompt_ne_empty nodes query h
    simp [get_answer, hp]

/-- Witness for C6 at an empty chunk list and at a failing LLM call. -/
theorem get_answer_spec_witness :
    get_answer (fun _ => Except.error ()) "q" [] = (no_prompt_msg, "") ∧
    get_answer (fun _ => Except.error ()) "q" ["c"] = (llm_error_msg, "") :=
  ⟨(get_answer_spec "q" []).1 (fun _ => Except.error ()),
   (get_answer_spec "q" ["c"]).2 (by decide)⟩

/-! ## C5: missing image aborts the whole file -/

/-- C5 counterexample: in a file with one existing and one missing image,
describing the existing image succeeds, yet `process_markdown_file`
returns `none` — the file is not rewritten at all, so the successful
description is discarded rather than saved. -/
theorem image_missing_cex :
    describe_image (fun p => p == "a.png") (fun _ => Except.ok "a description")
      "a.png" = Except.ok "a description" ∧
    process_markdown_file (fun p => p == "a.png") (fun _ => Except.ok "a description")
      [MdPiece.img "car" "a.png", MdPiece.img "eng" "missing.png"] = none :=
  ⟨rfl, rfl⟩

/-- With some referenced image file missing, the replacement loop raises. -/
theorem replace_images_err_of_missing (img_exists : String → Bool)
    (llm : String → Except Unit String) :
    ∀ pieces : List MdPiece, (∃ p ∈ pieces, piece_img_ok img_exists p = false) →
      replace_images (describe_image img_exists llm) pieces = Except.error () := by
  intro pieces
  induction pieces with
  | nil => rintro ⟨p, hp, -⟩; simp at hp
  | cons q rest ih =>
    rintro ⟨p, hp, hbad⟩
    rcases List.mem_cons.mp hp with rfl | hmem
    · cases p with
      | text s => simp [piece_img_ok] at hbad
      | img alt path =>
        have hd : describe_image img_exists llm path = Except.error () := by
          simp only [piece_img_ok] at hbad
          simp [describe_image, hbad]
        simp [replace_images, hd]
    · have hrest := ih ⟨p, hmem, hbad⟩
      cases q with
      | text s => simp [replace_images, hrest, Except.map]
      | img alt path =>
        cases describe_image img_exists llm path <;> simp [replace_images, hrest]

/-- With every referenced image file present, the replacement loop
rewrites each image tag into its description. -/
theorem replace_images_ok_of_present (img_exists : String → Bool)
    (llm : String → Except Unit String) :
    ∀ pieces : List MdPiece, (∀ p ∈ pieces, piece_img_ok img_exists p = true) →
      replace_images (describe_image img_exists llm) pieces
        = Except.ok (pieces.map (replace_one (describe_image img_exists llm))) := by
  intro pieces
  induction pieces with
  | nil => intro _; rfl
  | cons q rest ih =>
    intro h
    have hq := h q (List.mem_cons_self q rest)
    have hrest := ih (fun p hp => h p (List.mem_cons_of_mem q hp))
    cases q with
    | text s => simp [replace_images, hrest, replace_one, Except.map]
    | img alt path =>
      simp only [piece_img_ok] at hq
      obtain ⟨d, hd⟩ : ∃ d, describe_image img_exists llm path = Except.ok d := by
        cases hl : llm path with
        | ok x => exact ⟨x, by simp [describe_image, hq, hl]⟩
        | error e => exact ⟨"Error describing image " ++ path,
            by simp [describe_image, hq, hl]⟩
      simp [replace_images, hd, hrest, replace_one]

/-- C5 amended: a missing image file is a hard failure for the whole
markdown file — the `FileNotFoundError` escapes the per-image loop to the
file-level handler, no rewritten content is saved and the successful
descriptions are discarded; only when every referenced image exists is the
file rewritten, with each image tag replaced by its description.  Other
markdown files of the directory are still processed regardless. -/
theorem process_file_abort_spec (img_exists : String → Bool)
    (llm : String → Except Unit String) (pieces : List MdPiece) :
    ((∃ p ∈ pieces, piece_img_ok img_exists p = false) →
      process_markdown_file img_exists llm pieces = none) ∧
    ((∀ p ∈ pieces, piece_img_ok img_exists p = true) →
      process_markdown_file img_exists llm pieces
        = some (pieces.map (replace_one (describe_image img_exists llm)))) ∧
    (∀ files : List (List MdPiece),
      (process_dir img_exists llm files).length = files.length) := by
  refine ⟨?_, ?_, ?_⟩
  · intro h
    simp [process_markdown_file, replace_images_err_of_missing img_exists llm pieces h]
  · intro h
    simp [process_markdown_file, replace_images_ok_of_present img_exists llm pieces h]
  · intro files
    simp [process_dir]

/-- Witness for C5's amended statement: a file whose single image exists
is rewritten with the description in place of the tag. -/
theorem process_file_abort_witness :
    process_markdown_file (fun _ => true) (fun _ => Except.ok "d")
      [MdPiece.img "a" "p.png"] = some [MdPiece.text "d"] :=
  (process_file_abort_spec (fun _ => true) (fun _ => Except.ok "d")
    [MdPiece.img "a" "p.png"]).2.1 (by decide)

/-! ## C2: merge-step minimum threshold -/

/-- Every buffer the merge loop emits before its final one was closed by
the `else` branch and therefore has at least `minSize` characters. -/
theorem mergeLoop_dropLast_ge (minSize : Nat) :
    ∀ (ns : List String) (buf : String),
      ∀ b ∈ (mergeLoop minSize ns buf).dropLast, minSize ≤ b.length := by
  intro ns
  induction ns with
  | nil =>
    intro buf b hb
    by_cases h : buf = "" <;> simp [mergeLoop, h] at hb
  | cons n ns ih =>
    intro buf b hb
    by_cases h1 : buf = ""
    · rw [show mergeLoop minSize (n :: ns) buf = mergeLoop minSize ns (pyStrip n) from
        by simp [mergeLoop, h1]] at hb
      exact ih _ b hb
    · by_cases h2 : buf.length < minSize
      · rw [show mergeLoop minSize (n :: ns) buf
            = mergeLoop minSize ns (buf ++ "\n\n" ++ pyStrip n) from
          by simp [mergeLoop, h1, h2]] at hb
        exact ih _ b hb
      · rw [show mergeLoop minSize (n :: ns) buf
            = buf :: mergeLoop minSize ns (pyStrip n) from
          by simp [mergeLoop, h1, h2]] at hb
        rcases hr : mergeLoop minSize ns (pyStrip n) with - | ⟨r, rs⟩
        · rw [hr] at hb
          simp at hb
        · rw [hr, List.dropLast_cons₂] at hb
          rcases List.mem_cons.mp hb with rfl | hb'
          · exact Nat.le_of_not_lt h2
          · exact ih (pyStrip n) b (by rw [hr]; exact hb')

/-- C2: every buffer the merge step emits, except the final buffer of the
document, has character length at least the minimum threshold; and the
trailing buffer is flushed whenever it is non-empty, even below the
minimum. -/
theorem merge_min_threshold_spec (minSize : Nat) (nodes : List String) :
    (∀ b ∈ (mergeBuffers minSize nodes).dropLast, minSize ≤ b.length) ∧
    (∀ buf : String, buf ≠ "" → mergeLoop minSize [] buf = [buf]) := by
  constructor
  · exact fun b hb => mergeLoop_dropLast_ge minSize nodes "" b hb
  · intro buf h
    simp [mergeLoop, h]

/-- Witness for C2: a 2-character trailing buffer is still flushed under
the default minimum of 250. -/
theorem merge_min_threshold_witness :
    mergeLoop 250 [] "ab" = ["ab"] :=
  (merge_min_threshold_spec 250 []).2 "ab" (by decide)

/-! ## C10: the merge step neither loses nor duplicates text -/

/-- Unfolding of `joinSep` on a list with at least two elements. -/
theorem joinSep_cons_cons (sep x y : String) (xs : List String) :
    joinSep sep (x :: y :: xs) = x ++ sep ++ joinSep sep (y :: xs) := rfl

/-- Absorbing one more element into a non-empty group appends a separator
and the element to the joined text. -/
theorem joinSep_append_single (sep y : String) :
    ∀ xs : List String, xs ≠ [] →
      joinSep sep (xs ++ [y]) = joinSep sep xs ++ sep ++ y := by
  intro xs
  induction xs with
  | nil => intro h; exact absurd rfl h
  | cons x xs ih =>
    intro _hne
    cases xs with
    | nil => rfl
    | cons z zs =>
      show joinSep sep (x :: ((z :: zs) ++ [y]))
        = (x ++ sep ++ joinSep sep (z :: zs)) ++ sep ++ y
      rw [show (z :: zs) ++ [y] = z :: (zs ++ [y]) from rfl, joinSep_cons_cons,
        show z :: (zs ++ [y]) = (z :: zs) ++ [y] from rfl, ih (by simp)]
      simp [String.append_assoc]

/-- The join of a group led by a non-empty text is non-empty. -/
theorem joinSep_ne_empty (sep : String) (x : String) (xs : List String)
    (hx : x ≠ "") : joinSep sep (x :: xs) ≠ "" := by
  cases xs with
  | nil => simpa [joinSep] using hx
  | cons y ys =>
    rw [joinSep_cons_cons]
    exact str_left_ne_empty _ _ (str_left_ne_empty _ _ hx)

/-- Partition invariant of the merge loop: when every remaining node's
stripped text is non-empty and the running buffer is the join of a
non-empty group of non-empty texts, the emitted buffers are exactly the
joins of a partition of the group followed by the remaining stripped
texts. -/
theorem mergeLoop_partition (minSize : Nat) :
    ∀ (ns : List String) (g : List String), g ≠ [] → (∀ x ∈ g, x ≠ "") →
      (∀ n ∈ ns, pyStrip n ≠ "") →
      ∃ gs : List (List String),
        gs.flatten = g ++ ns.map pyStrip ∧
        mergeLoop minSize ns (joinSep "\n\n" g) = gs.map (joinSep "\n\n") ∧
        ∀ g' ∈ gs, g' ≠ [] := by
  intro ns
  induction ns with
  | nil =>
    intro g hg hgne _hns
    have hne : joinSep "\n\n" g ≠ "" := by
      cases g with
      | nil => exact absurd rfl hg
      | cons x xs => exact joinSep_ne_empty _ x xs (hgne x (List.mem_cons_self x xs))
    exact ⟨[g], by simp, by simp [mergeLoop, hne], by simpa using hg⟩
  | cons n ns ih =>
    intro g hg hgne hns
    have hn : pyStrip n ≠ "" := hns n (List.mem_cons_self n ns)
    have hns' : ∀ m ∈ ns, pyStrip m ≠ "" := fun m hm => hns m (List.mem_cons_of_mem n hm)
    have hbufne : joinSep "\n\n" g ≠ "" := by
      cases g with
      | nil => exact absurd rfl hg
      | cons x xs => exact joinSep_ne_empty _ x xs (hgne x (List.mem_cons_self x xs))
    by_cases hlen : (joinSep "\n\n" g).length < minSize
    · obtain ⟨gs, h1, h2, h3⟩ := ih (g ++ [pyStrip n]) (by simp)
        (by
          intro x hx
          rcases List.mem_append.mp hx with hx' | hx'
          · exact hgne x hx'
          · rw [List.mem_singleton.mp hx']; exact hn)
        hns'
      refine ⟨gs, ?_, ?_, h3⟩
      · rw [h1]
        simp
      · rw [show mergeLoop minSize (n :: ns) (joinSep "\n\n" g)
            = mergeLoop minSize ns (joinSep "\n\n" g ++ "\n\n" ++ pyStrip n) from
          by simp [mergeLoop, hbufne, hlen]]
        rw [← joinSep_append_single "\n\n" (pyStrip n) g hg, h2]
    · obtain ⟨gs, h1, h2, h3⟩ := ih [pyStrip n] (by simp) (by simpa using hn) hns'
      refine ⟨g :: gs, ?_, ?_, ?_⟩
      · simp [h1]
      · rw [show mergeLoop minSize (n :: ns) (joinSep "\n\n" g)
            = joinSep "\n\n" g :: mergeLoop minSize ns (pyStrip n) from
          by simp [mergeLoop, hbufne, hlen]]
        rw [show pyStrip n = joinSep "\n\n" [pyStrip n] from rfl, h2]
        rfl
      · intro g' hg'
        rcases List.mem_cons.mp hg' with rfl | hg''
        · exact hg
        · exact h3 g' hg''

/-- C10 counterexample: with the node list `["", "b"]` the first node's
stripped text is empty and vanishes without being appended to any buffer,
so no partition of the stripped node texts into groups reproduces the
emitted buffers: the claim fails on nodes whose stripped text is empty. -/
theorem merge_partition_cex :
    ¬ ∃ gs : List (List String),
        gs.flatten = (["", "b"] : List String).map pyStrip ∧
        mergeBuffers 250 ["", "b"] = gs.map (joinSep "\n\n") := by
  rintro ⟨gs, hj, hb⟩
  rw [show (["", "b"] : List String).map pyStrip = ["", "b"] from by decide] at hj
  rw [show mergeBuffers 250 ["", "b"] = ["b"] from by decide] at hb
  cases gs with
  | nil => simp at hb
  | cons g gs' =>
    cases gs' with
    | cons g2 gs'' => simp at hb
    | nil =>
      have hg : g = ["", "b"] := by simpa using hj
      have hjoin : joinSep "\n\n" g = "b" := by
        have := congrArg (fun l => List.getD l 0 "") hb.symm
        simpa using this
      rw [hg] at hjoin
      exact absurd hjoin (by decide)

/-- C10 amended: provided every node's stripped text is non-empty, the
merge step loses and duplicates nothing — the stripped node texts split
into consecutive non-empty groups, in document order, and the emitted
buffers are exactly those groups joined with the inserted blank lines. -/
theorem merge_partition_spec (minSize : Nat) (nodes : List String)
    (h : ∀ n ∈ nodes, pyStrip n ≠ "") :
    ∃ gs : List (List String),
      gs.flatten = nodes.map pyStrip ∧
      mergeBuffers minSize nodes = gs.map (joinSep "\n\n") ∧
      ∀ g ∈ gs, g ≠ [] := by
  cases nodes with
  | nil => exact ⟨[], by simp, by simp [mergeBuffers, mergeLoop], by simp⟩
  | cons n ns =>
    have hn : pyStrip n ≠ "" := h n (List.mem_cons_self n ns)
    obtain ⟨gs, h1, h2, h3⟩ := mergeLoop_partition minSize ns [pyStrip n]
      (by simp) (by simpa using hn) (fun m hm => h m (List.mem_cons_of_mem n hm))
    refine ⟨gs, ?_, ?_, h3⟩
    · rw [h1]
      simp
    · rw [show mergeBuffers minSize (n :: ns)
          = mergeLoop minSize ns (pyStrip n) from by simp [mergeBuffers, mergeLoop]]
      rw [show pyStrip n = joinSep "\n\n" [pyStrip n] from rfl, h2]

/-- Witness for C10's amended statement on two concrete non-empty nodes. -/
theorem merge_partition_witness :
    ∃ gs : List (List String),
      gs.flatten = (["hello", "world"] : List String).map pyStrip ∧
      mergeBuffers 250 ["hello", "world"] = gs.map (joinSep "\n\n") ∧
      ∀ g ∈ gs, g ≠ [] :=
  merge_partition_spec 250 ["hello", "world"] (by decide)

/-! ## C3: subject-tag detection granularity -/

/-- First node of the C3 counterexample: 250 filler characters followed by
`Honda`, so the buffer closes (it exceeds the minimum of 250) and the file
content mentions a known tag. -/
def cex_node1 : String := String.mk (List.replicate 250 'x') ++ "Honda"

/-- Second node of the C3 counterexample: text matching no known tag. -/
def cex_node2 : String := "generic text"

/-- File content of the C3 counterexample, the two nodes as one markdown
document. -/
def cex_content : String := cex_node1 ++ "\n\n" ++ cex_node2

/-- C3 counterexample: the code computes the tag once from the whole file
content, so the second closed buffer (`"generic text"`, which matches no
tag and whose per-buffer detection would fall back to `"Volkswagen"`)
still receives the tag `"Honda"` detected from the first buffer's text:
tag detection is not performed per closed buffer. -/
theorem tag_per_buffer_cex :
    ¬ (∀ p ∈ chunk_file_tags 250 cex_content [cex_node1, cex_node2] "doc.md",
        p.2 = extract_model_name p.1 "doc.md") := by
  decide

/-- C3 amended: the tag is detected once per document — by
case-insensitive substring match against the whole file content and then
the normalized filename, first match in `known_models` order winning and
`"Volkswagen"` as the fallback — and every closed buffer of the document
is assigned that single document-level tag. -/
theorem tag_detection_spec (minSize : Nat) (content filename : String)
    (nodes : List String) :
    (∀ p ∈ chunk_file_tags minSize content nodes filename,
      p.2 = extract_model_name content filename) ∧
    (known_models.find? (model_matches content filename) = none →
      extract_model_name content filename = "Volkswagen") ∧
    (∀ i : Nat, i < known_models.length →
      model_matches content filename (known_models.getD i "") = true →
      (∀ j : Nat, j < i →
        model_matches content filename (known_models.getD j "") = false) →
      extract_model_name content filename = known_models.getD i "") := by
  refine ⟨?_, ?_, ?_⟩
  · intro p hp
    simp only [chunk_file_tags, List.mem_map] at hp
    obtain ⟨b, -, rfl⟩ := hp
    rfl
  · intro h
    simp [extract_model_name, h]
  · intro i hi hp hj
    have := find_first_of_getD (model_matches content filename) "" known_models i hi hp hj
    simp [extract_model_name, this]

/-- Witness for C3's amended statement: no match falls back to
`"Volkswagen"`, and `"Honda"` (position 2 of the list) wins when it is the
first matching tag. -/
theorem tag_detection_witness :
    extract_model_name "no cars here" "f.md" = "Volkswagen" ∧
    extract_model_name "a honda car" "f.md" = "Honda" :=
  ⟨(tag_detection_spec 250 "no cars here" "f.md" []).2.1 (by decide),
   (tag_detection_spec 250 "a honda car" "f.md" []).2.2 2 (by decide) (by decide)
     (by decide)⟩

/-! ## C4: splitter maximum-size bound -/

/-- Character-level cut: with positive `maxSize` and enough fuel, every
piece has at most `maxSize` characters. -/
theorem hardChunksAux_le (maxSize : Nat) (hpos : 0 < maxSize) :
    ∀ (fuel : Nat) (cs : List Char), cs.length ≤ fuel →
      ∀ c ∈ hardChunksAux maxSize fuel cs, c.length ≤ maxSize := by
  intro fuel
  induction fuel with
  | zero =>
    intro cs hcs c hc
    rw [List.eq_nil_of_length_eq_zero (Nat.le_zero.mp hcs)] at hc
    simp [hardChunksAux] at hc
  | succ fuel ih =>
    intro cs hcs c hc
    cases cs with
    | nil => simp [hardChunksAux] at hc
    | cons a as =>
      simp only [hardChunksAux] at hc
      by_cases hlen : (a :: as).length ≤ maxSize
      · rw [if_pos hlen] at hc
        rw [List.mem_singleton.mp hc]
        exact hlen
      · rw [if_neg hlen] at hc
        rcases List.mem_cons.mp hc with rfl | hc'
        · simp [List.length_take]
        · refine ih ((a :: as).drop maxSize) ?_ c hc'
          rw [List.length_drop]
          omega

/-- Every chunk of the character-level cut of a string respects the
maximum. -/
theorem hardChunks_le (maxSize : Nat) (hpos : 0 < maxSize) (s : String) :
    ∀ c ∈ hardChunks maxSize s, c.length ≤ maxSize := by
  intro c hc
  simp only [hardChunks, List.mem_map] at hc
  obtain ⟨l, hl, rfl⟩ := hc
  exact hardChunksAux_le maxSize hpos s.data.length s.data le_rfl l hl

/-- Greedy re-merge preserves the maximum bound: if every piece and the
accumulator fit, every output chunk fits. -/
theorem mergeSplits_le (maxSize : Nat) (sep : String) :
    ∀ (ps : List String) (acc : String), (∀ p ∈ ps, p.length ≤ maxSize) →
      acc.length ≤ maxSize →
      ∀ c ∈ mergeSplits maxSize sep ps acc, c.length ≤ maxSize := by
  intro ps
  induction ps with
  | nil =>
    intro acc _ hacc c hc
    by_cases h : acc = "" <;> simp [mergeSplits, h] at hc
    rw [hc]
    exact hacc
  | cons p ps ih =>
    intro acc hps hacc c hc
    have hp : p.length ≤ maxSize := hps p (List.mem_cons_self p ps)
    have hps' : ∀ q ∈ ps, q.length ≤ maxSize :=
      fun q hq => hps q (List.mem_cons_of_mem p hq)
    by_cases h1 : acc = ""
    · rw [show mergeSplits maxSize sep (p :: ps) acc = mergeSplits maxSize sep ps p
        from by simp [mergeSplits, h1]] at hc
      exact ih p hps' hp c hc
    · by_cases h2 : acc.length + sep.length + p.length ≤ maxSize
      · rw [show mergeSplits maxSize sep (p :: ps) acc
            = mergeSplits maxSize sep ps (acc ++ sep ++ p) from
          by simp [mergeSplits, h1, h2]] at hc
        refine ih (acc ++ sep ++ p) hps' ?_ c hc
        simp only [String.length_append]
        omega
      · rw [show mergeSplits maxSize sep (p :: ps) acc
            = acc :: mergeSplits maxSize sep ps p from
          by simp [mergeSplits, h1, h2]] at hc
        rcases List.mem_cons.mp hc with rfl | hc'
        · exact hacc
        · exact ih p hps' hp c hc'

/-- Every chunk produced by the recursive splitter model has at most
`maxSize` characters, for positive `maxSize`. -/
theorem split_text_le (maxSize : Nat) (hpos : 0 < maxSize) :
    ∀ (seps : List String) (text : String),
      ∀ c ∈ split_text maxSize seps text, c.length ≤ maxSize := by
  intro seps
  induction seps with
  | nil =>
    intro text c hc
    exact hardChunks_le maxSize hpos text c (by simpa [split_text] using hc)
  | cons sep rest ih =>
    intro text c hc
    by_cases h : text.length ≤ maxSize
    · rw [show split_text maxSize (sep :: rest) text = [text] from
        by simp [split_text, h]] at hc
      rw [List.mem_singleton.mp hc]
      exact h
    · rw [show split_text maxSize (sep :: rest) text
          = mergeSplits maxSize sep
              ((text.splitOn sep).flatMap (fun part => split_text maxSize rest part))
              "" from by simp [split_text, h]] at hc
      refine mergeSplits_le maxSize sep _ "" ?_ (by simp) c hc
      intro q hq
      rw [List.mem_flatMap] at hq
      obtain ⟨part, -, hmem⟩ := hq
      exact ih part q hmem

/-- C4: every final chunk the splitter emits for a merged buffer (prefixed
with its `Car model:` line) has character length at most the maximum
threshold `MAX_CHUNK_SIZE = 1500`; a final shorter chunk is permitted by
this bound. -/
theorem buffer_chunks_max_bound (modelName bufText : String) :
    ∀ c ∈ buffer_chunks modelName bufText, c.length ≤ MAX_CHUNK_SIZE :=
  fun c hc =>
    split_text_le MAX_CHUNK_SIZE (by decide) splitter_separators
      ("Car model: " ++ modelName ++ "\n\n" ++ bufText) c hc

/-- Witness for C4: a concrete short buffer yields its prefixed text as
the single chunk, within the maximum. -/
theorem buffer_chunks_max_bound_witness :
    ("Car model: Honda\n\nhi" : String).length ≤ MAX_CHUNK_SIZE :=
  buffer_chunks_max_bound "Honda" "hi" "Car model: Honda\n\nhi" (by decide)

end CarRag
